import Mathlib

/-!
# Verification of the mem0 chrome extension content scripts

Shallow embedding of the in-page orchestration controller of the
mem0-chrome-extension-local repository, covering the three content-script
variants present in the sources:

* `src/extension/chatgpt/content.js`    — the ChatGPT variant (`handleMem0Click`,
  `isProcessingMem0` re-entrancy flag, regex-based strip, HTML memory block);
* `src/extension/perplexity/content.js` — the Perplexity variant
  (`handleEnterKey`, `handleMem0Processing`, plain-text memory block);
* `src/unnamed/part_003`                — the Grok variant (same shape as
  Perplexity, with an `indexOf`-based strip of `lastInputValue`).

Strings are modelled as `List Char` (a JavaScript string is a sequence of
code units; all operations used by the scripts — `replace` with an anchored
regex, `indexOf`, `substring`, `slice`, `trim`, concatenation — are plain
sequence operations).  JavaScript whitespace is modelled by `isJsWS`; the
theorems below do not depend on the exact whitespace set.  Fallible or
effectful steps (the `search` / `add` HTTP calls, DOM queries, popups,
console logging, the send-button click) are modelled by explicit environment
records and effect records: each handler becomes a pure function from its
environment (DOM state, extension storage, outcome of the awaited search
call) to the effects it performs.
-/

set_option maxRecDepth 4096

namespace Mem0

/-- JavaScript whitespace (the ASCII part of `\s` / `String.prototype.trim`).
The claims proved below are insensitive to the exact character set. -/
def isJsWS (c : Char) : Bool :=
  c == ' ' || c == '\t' || c == '\n' || c == '\r' || c == Char.ofNat 11 || c == Char.ofNat 12

/-- Left part of JavaScript `trim`: drop leading whitespace. -/
def trimLeft (l : List Char) : List Char := l.dropWhile isJsWS

/-- Right part of JavaScript `trim`: drop trailing whitespace. -/
def trimRight (l : List Char) : List Char := (l.reverse.dropWhile isJsWS).reverse

/-- JavaScript `String.prototype.trim`. -/
def jsTrim (l : List Char) : List Char := trimRight (trimLeft l)

/-- First index at which `pat` occurs in a list (JavaScript `indexOf`). -/
def firstOccur (pat : List Char) : List Char → Option Nat
  | [] => if pat.isPrefixOf ([] : List Char) then some 0 else none
  | a :: tl =>
    if pat.isPrefixOf (a :: tl) then some 0
    else (firstOccur pat tl).map (fun n => n + 1)

/-- Apostrophe character, kept out of string literals. -/
def apos : Char := Char.ofNat 39

/-- The fixed marker sentence that delimits every MemoryAnnotationBlock, used
verbatim by all three content scripts (the preamble of the injected block and
the needle of both strip procedures). -/
def memoryMarker : List Char :=
  ("Here is some of my preferences/memories to help answer better (don".data)
    ++ [apos]
    ++ ("t respond to these memories but use them to assist in the response if relevant):".data)

/-- Length of the maximal whitespace run at the end of a list. -/
def wsSuffixLen (l : List Char) : Nat := (l.reverse.takeWhile isJsWS).length

/-- The ChatGPT variant strip (content.js lines 164-166 and 224-226):
`content.replace(memInfoRegex, "").trim()` where `memInfoRegex` is
`/\s*MARKER[\s\S]*$/`.  The regex `replace` deletes from the leftmost
position where an optional whitespace run followed by the marker begins
(that is, from the first occurrence of the marker, minus the whitespace run
immediately preceding it) to the end of the string; when the marker does not
occur the `replace` is the identity.  `trim` is applied in either case. -/
def stripRegex (l : List Char) : List Char :=
  match firstOccur memoryMarker l with
  | none => jsTrim l
  | some i => jsTrim (l.take (i - wsSuffixLen (l.take i)))

/-- The Grok variant strip (part_003 lines 151-156): `indexOf` of the fixed
marker prefix; when found, `substring(0, prefixIndex).trim()`; otherwise the
content is left untouched. -/
def stripIdx (l : List Char) : List Char :=
  match firstOccur memoryMarker l with
  | none => l
  | some i => jsTrim (l.take i)

/-- The closing-paragraph-tag literal used by the ChatGPT message
normalisation (content.js lines 167-170). -/
def pEndTag : List Char := "</p>".data

/-- ChatGPT content.js lines 167-170: `indexOf("</p>")`; when found, the
message is cut after the first closing tag (`slice(0, endIndex + 4)`). -/
def sliceP (l : List Char) : List Char :=
  match firstOccur pEndTag l with
  | none => l
  | some i => l.take (i + 4)

/-- The trailing-paragraph literal matched by `lastParagraphRegex`
(content.js lines 227-228). -/
def lastParLit : List Char := "<p><br class=\"ProseMirror-trailingBreak\"></p><p>".data

/-- `content.replace(lastParagraphRegex, "")`: the regex is anchored at `$`,
so it removes the literal exactly when it is a suffix. -/
def removeLastPar (l : List Char) : List Char :=
  if lastParLit <:+ l then l.take (l.length - lastParLit.length) else l

/-- The full cleaning pass the ChatGPT composer applies to the current input
content before appending a block (content.js lines 224-229): marker strip and
trim, then trailing-paragraph removal and trim. -/
def cleanContent (l : List Char) : List Char := jsTrim (removeLastPar (stripRegex l))

/-- The bullet-list loop of the Perplexity and Grok composers
(perplexity content.js lines 150-155, part_003 lines 166-171):
`memoriesContent += "- " + mem` with a newline after every bullet except the
last. -/
def bulletsP : List (List Char) → List Char
  | [] => []
  | m :: rest =>
    ('-' :: ' ' :: m) ++ (if rest.isEmpty then [] else '\n' :: bulletsP rest)

/-- Newline join (the shape the spec describes: one bullet line per memory). -/
def nlJoin : List (List Char) → List Char
  | [] => []
  | [x] => x
  | x :: rest => x ++ '\n' :: nlJoin rest

/-- The Perplexity/Grok compose (perplexity content.js lines 147-161, part_003
lines 159-173): with a non-empty memories list the written content is the
captured message followed by `"\n\n" + MARKER + "\n"` and the bullet list;
with an empty list the Perplexity variant writes the original message back
unchanged. -/
def composeP (orig : List Char) (mems : List (List Char)) : List Char :=
  if mems.isEmpty then orig
  else orig ++ '\n' :: '\n' :: (memoryMarker ++ '\n' :: bulletsP mems)

/-- Opening tag of the ChatGPT HTML memory block (content.js lines 231-232). -/
def wrapOpen : List Char :=
  "<div id=\"mem0-wrapper\" style=\"background-color: rgb(220, 252, 231); padding: 8px; border-radius: 4px; margin-top: 8px; margin-bottom: 8px;\">".data

/-- One HTML bullet of the ChatGPT block (content.js line 236). -/
def htmlBullet (m : List Char) : List Char := "<div>- ".data ++ m ++ "</div>".data

/-- The preamble line of the ChatGPT block (content.js lines 233-234). -/
def strongLine : List Char := "<strong>".data ++ memoryMarker ++ "</strong>".data

/-- The ChatGPT HTML memory block (content.js lines 231-238): wrapper div,
`<strong>` preamble, then the `forEach` loop appending one `<div>- mem</div>`
per memory, then the closing tag. -/
def chatgptBlock (mems : List (List Char)) : List Char :=
  (mems.foldl (fun acc m => acc ++ htmlBullet m) (wrapOpen ++ strongLine)) ++ "</div>".data

/-- ChatGPT compose for a `textarea` input (content.js line 243):
`value = currentContent + "\n" + memoriesContent` after the cleaning pass. -/
def chatgptComposeText (value : List Char) (mems : List (List Char)) : List Char :=
  cleanContent value ++ '\n' :: chatgptBlock mems

/-- ChatGPT compose for a contenteditable `div` input (content.js line 241):
`innerHTML = currentContent + "<div><br></div>" + memoriesContent` after the
cleaning pass. -/
def chatgptComposeHTML (html : List Char) (mems : List (List Char)) : List Char :=
  cleanContent html ++ "<div><br></div>".data ++ chatgptBlock mems

/-- Number of positions at which the marker occurs in a content string; a
MemoryAnnotationBlock is delimited by the marker, so this counts blocks. -/
def markerOccurrences (l : List Char) : Nat :=
  (List.range l.length).countP (fun j => memoryMarker.isPrefixOf (l.drop j))

/-- Message roles (data model `ConversationMessage`). -/
inductive Role
  | user
  | assistant
deriving DecidableEq

/-- A conversation message `{ role, content }`. -/
structure Msg where
  role : Role
  content : List Char
deriving DecidableEq

/-- One child of the ChatGPT message container as seen by `getLastMessages`:
it holds a user message, an assistant message, or neither. -/
inductive DomEntry
  | userMsg (content : List Char)
  | assistantMsg (content : List Char)
  | otherNode
deriving DecidableEq

/-- The conversation turns present in a DOM transcript, in order. -/
def turnsOf : List DomEntry → List Msg
  | [] => []
  | DomEntry.userMsg c :: r => ⟨Role.user, c⟩ :: turnsOf r
  | DomEntry.assistantMsg c :: r => ⟨Role.assistant, c⟩ :: turnsOf r
  | DomEntry.otherNode :: r => turnsOf r

/-- The collection loop of `getLastMessages` (content.js lines 395-419): walk
the (already reversed) children, stop once `count` messages are collected,
`unshift` each recognised message. -/
def collectMsgs (count : Nat) : List DomEntry → List Msg → List Msg
  | [], acc => acc
  | DomEntry.userMsg c :: rest, acc =>
    if count ≤ acc.length then acc
    else collectMsgs count rest (⟨Role.user, c⟩ :: acc)
  | DomEntry.assistantMsg c :: rest, acc =>
    if count ≤ acc.length then acc
    else collectMsgs count rest (⟨Role.assistant, c⟩ :: acc)
  | DomEntry.otherNode :: rest, acc =>
    if count ≤ acc.length then acc
    else collectMsgs count rest acc

/-- `getLastMessages(count)` (ChatGPT content.js lines 389-422). -/
def getLastMessages (count : Nat) (entries : List DomEntry) : List Msg :=
  collectMsgs count entries.reverse []

/-- The last `n` elements of a list. -/
def takeLast (n : Nat) (l : List Msg) : List Msg := l.drop (l.length - n)

/-- Outcome of the awaited search HTTP call: a typed failure (non-2xx status
or network error) or the list of memory strings extracted from the response
(`memoriesArray.map(item => item.memory)`). -/
inductive SearchResult
  | err
  | ok (mems : List (List Char))
deriving DecidableEq

/-- JavaScript truthiness of an optional string (absent and empty are falsy). -/
def jsTruthy : Option (List Char) → Bool
  | none => false
  | some [] => false
  | some (_ :: _) => true

/-- Environment of one `handleMem0Click` invocation (ChatGPT variant): the
memory-enabled state, whether a popup anchor was passed (the toolbar-button
path passes one, the Enter and Ctrl+M paths pass `null`), the
`clickSendButton` argument, the state of the input element, the DOM
transcript, and the outcome of the search call. -/
structure CEnv where
  memoryEnabled : Bool
  popupPresent : Bool
  clickSendButton : Bool
  inputPresent : Bool
  isDiv : Bool
  textContent : List Char
  value : List Char
  innerHTML : List Char
  dom : List DomEntry
  searchOutcome : SearchResult
deriving DecidableEq

/-- `getInputValue()` (content.js lines 457-462): `textContent || value` of
the located input, `null` when there is none.  For a textarea the
`textContent` is empty so the `value` is returned; for a contenteditable div
the `textContent` is returned. -/
def chatgptGetInput (env : CEnv) : Option (List Char) :=
  if env.inputPresent then
    if env.isDiv then some env.textContent else some env.value
  else none

/-- Observable effects of one `handleMem0Click` invocation. -/
structure CEffects where
  searchCalls : Nat
  addCalls : Nat
  addPayload : Option (List Msg)
  releaseInvoked : Bool
  popupMessages : List (List Char)
  consoleErrors : Nat
  writtenContent : Option (List Char)
  flagAfter : Bool
  threw : Bool
deriving DecidableEq

/-- The stripped and `</p>`-normalised message `handleMem0Click` works with
(content.js lines 164-170), as a function of the raw input text. -/
def chatgptMessage (raw : List Char) : List Char := sliceP (stripRegex raw)

/-- One invocation of `handleMem0Click` (ChatGPT content.js lines 135-288),
as a function of its environment and the value of the `isProcessingMem0`
flag when the invocation starts.  Effects:

* memory disabled: only the optional send-button click happens;
* empty (falsy) input: console error plus popup (when a popup anchor was
  passed), nothing else — the flag is untouched;
* `isProcessingMem0` already set: the invocation returns before the `try`
  block, so no search, no add, no write and no release happen;
* search failure: console error, error popup (when anchored), re-throw; the
  input is never written, the send button is never clicked, the `finally`
  block clears the flag;
* search success: the input is rewritten (block append for non-empty
  memories, the stripped message alone for empty memories), the send button
  is clicked when `clickSendButton` was set, and the add call is issued with
  the context window assembled before the search. -/
def chatgptClick (env : CEnv) (flag : Bool) : CEffects :=
  if env.memoryEnabled = false then
    { searchCalls := 0, addCalls := 0, addPayload := none,
      releaseInvoked := env.clickSendButton, popupMessages := [],
      consoleErrors := 0, writtenContent := none, flagAfter := flag, threw := false }
  else
    if jsTruthy (chatgptGetInput env) = false then
      { searchCalls := 0, addCalls := 0, addPayload := none,
        releaseInvoked := false,
        popupMessages := if env.popupPresent then ["No input message found".data] else [],
        consoleErrors := 1, writtenContent := none, flagAfter := flag, threw := false }
    else
      if flag then
        { searchCalls := 0, addCalls := 0, addPayload := none,
          releaseInvoked := false, popupMessages := [],
          consoleErrors := 0, writtenContent := none, flagAfter := true, threw := false }
      else
        let raw := (chatgptGetInput env).getD []
        let msg := chatgptMessage raw
        let payload := getLastMessages 2 env.dom ++ [⟨Role.user, msg⟩]
        match env.searchOutcome with
        | SearchResult.err =>
          { searchCalls := 1, addCalls := 0, addPayload := none,
            releaseInvoked := false,
            popupMessages := if env.popupPresent then ["Error connecting to local Mem0 server".data] else [],
            consoleErrors := 1, writtenContent := none, flagAfter := false, threw := true }
        | SearchResult.ok mems =>
          { searchCalls := 1, addCalls := 1, addPayload := some payload,
            releaseInvoked := env.clickSendButton,
            popupMessages :=
              if mems.isEmpty ∧ env.popupPresent then ["No memories found".data] else [],
            consoleErrors := 0,
            writtenContent :=
              some (if mems.isEmpty then msg
                    else if env.isDiv then chatgptComposeHTML env.innerHTML mems
                    else chatgptComposeText env.value mems),
            flagAfter := false, threw := false }

/-- Storage and DOM environment of one `handleMem0Processing` invocation
(Perplexity content.js lines 69-202; the Grok variant, part_003 lines 78-209,
reads the same storage keys).  `memoryEnabledFlag` models the stored
`memory_enabled` value (`none` when unset); the code treats it as enabled
unless it is literally `false`. -/
structure PEnv where
  capturedText : List Char
  textareaValue : List Char
  clickSend : Bool
  apiKey : Option (List Char)
  accessToken : Option (List Char)
  memoryEnabledFlag : Option Bool
  inputPresent : Bool
  searchOutcome : SearchResult
deriving DecidableEq

/-- Observable effects of one Perplexity/Grok `handleMem0Processing`
invocation. -/
structure PEffects where
  searchCalls : Nat
  addCalls : Nat
  addPayload : Option (List Msg)
  releaseInvoked : Bool
  consoleErrors : Nat
  writtenContent : Option (List Char)
deriving DecidableEq

/-- The `message` variable of `handleMem0Processing`:
`capturedText || textarea.value.trim()`. -/
def pMessage (env : PEnv) : List Char :=
  if env.capturedText.isEmpty then jsTrim env.textareaValue else env.capturedText

/-- Whether the credentials guard passes: `!apiKey && !accessToken` aborts. -/
def credsPresent (env : PEnv) : Bool := jsTruthy env.apiKey || jsTruthy env.accessToken

/-- The stored memory_enabled check: `data.memory_enabled !== false`. -/
def pMemoryEnabled (env : PEnv) : Bool := env.memoryEnabledFlag ≠ some false

/-- One invocation of the Perplexity `handleMem0Processing` (perplexity
content.js lines 69-202).  Effects:

* empty message: console error only;
* no apiKey and no access_token: console error only — no search, no add, no
  write, no release;
* memory disabled: the optional send click only;
* search failure: the `catch` block restores the original message into the
  input (when the input still exists); the send button is never clicked and
  the add call is never issued;
* search success: the input is rewritten with `composeP` (note: the
  Perplexity composer appends to the original captured message without any
  strip), the send click happens when requested, and the add call is issued
  carrying only `[{role:"user", content: message}]`. -/
def perplexityProcess (env : PEnv) : PEffects :=
  let message := pMessage env
  if message.isEmpty then
    { searchCalls := 0, addCalls := 0, addPayload := none,
      releaseInvoked := false, consoleErrors := 1, writtenContent := none }
  else if credsPresent env = false then
    { searchCalls := 0, addCalls := 0, addPayload := none,
      releaseInvoked := false, consoleErrors := 1, writtenContent := none }
  else if pMemoryEnabled env = false then
    { searchCalls := 0, addCalls := 0, addPayload := none,
      releaseInvoked := env.clickSend, consoleErrors := 0, writtenContent := none }
  else
    match env.searchOutcome with
    | SearchResult.err =>
      { searchCalls := 1, addCalls := 0, addPayload := none,
        releaseInvoked := false, consoleErrors := 1,
        writtenContent := if env.inputPresent then some message else none }
    | SearchResult.ok mems =>
      if env.inputPresent then
        { searchCalls := 1, addCalls := 1, addPayload := some [⟨Role.user, message⟩],
          releaseInvoked := env.clickSend, consoleErrors := 0,
          writtenContent := some (composeP message mems) }
      else
        { searchCalls := 1, addCalls := 1, addPayload := some [⟨Role.user, message⟩],
          releaseInvoked := false, consoleErrors := 1, writtenContent := none }

/-- One invocation of the Grok `handleMem0Processing` (part_003 lines
78-209).  It differs from the Perplexity variant in three places: the `catch`
block does not restore anything, the empty-memories branch writes nothing,
and the composed content is `capturedText + memoriesContent` — the strip of
`lastInputValue` (lines 151-156) is performed but its result is not what is
written back. -/
def grokProcess (env : PEnv) : PEffects :=
  let message := pMessage env
  if message.isEmpty then
    { searchCalls := 0, addCalls := 0, addPayload := none,
      releaseInvoked := false, consoleErrors := 1, writtenContent := none }
  else if credsPresent env = false then
    { searchCalls := 0, addCalls := 0, addPayload := none,
      releaseInvoked := false, consoleErrors := 1, writtenContent := none }
  else if pMemoryEnabled env = false then
    { searchCalls := 0, addCalls := 0, addPayload := none,
      releaseInvoked := env.clickSend, consoleErrors := 0, writtenContent := none }
  else
    match env.searchOutcome with
    | SearchResult.err =>
      { searchCalls := 1, addCalls := 0, addPayload := none,
        releaseInvoked := false, consoleErrors := 1, writtenContent := none }
    | SearchResult.ok mems =>
      if env.inputPresent then
        { searchCalls := 1, addCalls := 1, addPayload := some [⟨Role.user, message⟩],
          releaseInvoked := env.clickSend, consoleErrors := 0,
          writtenContent :=
            if mems.isEmpty then none
            else some (env.capturedText ++ '\n' :: '\n' :: (memoryMarker ++ '\n' :: bulletsP mems)) }
      else
        { searchCalls := 1, addCalls := 1, addPayload := some [⟨Role.user, message⟩],
          releaseInvoked := false, consoleErrors := 1, writtenContent := none }

/-- State of one `keydown` event as seen by the Perplexity/Grok
`handleEnterKey` (perplexity content.js lines 52-67, part_003 lines 62-76):
the key flags, whether the textarea exists and is focused, and its value. -/
structure EnterEnv where
  isEnter : Bool
  shift : Bool
  composing : Bool
  textareaPresent : Bool
  focused : Bool
  value : List Char
deriving DecidableEq

/-- Whether `handleEnterKey` captures the event.  Exactly when it does,
`preventDefault`/`stopPropagation` are called and `handleMem0Processing`
is invoked with the trimmed value; otherwise the native event proceeds and
nothing else happens.  The Grok `handleEnterKey` is letter-for-letter the
same logic. -/
def enterCaptures (e : EnterEnv) : Bool :=
  e.isEnter && !e.shift && !e.composing && e.textareaPresent && e.focused
    && !(jsTrim e.value).isEmpty

/-- The `messages` context window the ChatGPT variant sends to the add
endpoint (content.js lines 182-183 and 290-308): the last two DOM turns plus
the new user message. -/
def chatgptAddPayload (entries : List DomEntry) (message : List Char) : List Msg :=
  getLastMessages 2 entries ++ [⟨Role.user, message⟩]

/-- The `messages` context window the Perplexity and Grok variants send to
the add endpoint (perplexity content.js line 114, part_003 line 120).  The
DOM transcript is taken as an argument to make the comparison with the claim
explicit: the code performs no DOM read at all, so the payload ignores it. -/
def perplexityAddPayload (_entries : List DomEntry) (message : List Char) : List Msg :=
  [⟨Role.user, message⟩]

/-! ## Concrete environments used by witnesses and counterexamples -/

/-- A ChatGPT environment for a successful cycle: textarea input holding
`"I love Python"`, two prior DOM turns, search returning one memory. -/
def envOkC : CEnv :=
  { memoryEnabled := true, popupPresent := false, clickSendButton := true,
    inputPresent := true, isDiv := false, textContent := [],
    value := "I love Python".data, innerHTML := [],
    dom := [DomEntry.userMsg "hi".data, DomEntry.assistantMsg "hello there".data],
    searchOutcome := SearchResult.ok ["Loves FastAPI".data] }

/-- The same environment with a failing search call. -/
def envErrC : CEnv := { envOkC with searchOutcome := SearchResult.err }

/-- The same environment with an empty input and no popup anchor (the state
of the Enter-interception path, which calls `handleMem0Click(null, true)`). -/
def envEmptyC : CEnv := { envOkC with value := [] }

/-- Empty input with a popup anchor (the toolbar-button path). -/
def envEmptyPopupC : CEnv := { envOkC with value := [], popupPresent := true }

/-- A Perplexity environment for a successful cycle with credentials. -/
def penvOk : PEnv :=
  { capturedText := "hi".data, textareaValue := "hi".data, clickSend := true,
    apiKey := some "k".data, accessToken := none, memoryEnabledFlag := none,
    inputPresent := true, searchOutcome := SearchResult.ok [] }

/-- The same environment with a failing search call. -/
def penvErr : PEnv := { penvOk with searchOutcome := SearchResult.err }

/-- The same environment with neither an apiKey nor an access_token in
storage (the apiKey is absent, the access token is the empty string — both
are falsy). -/
def penvNoCreds : PEnv := { penvOk with apiKey := none, accessToken := some [] }

/-- An Enter keydown on a focused textarea holding non-blank text. -/
def eenvEnter : EnterEnv :=
  { isEnter := true, shift := false, composing := false,
    textareaPresent := true, focused := true, value := "hi".data }

/-- An Enter keydown on a focused textarea holding only blanks. -/
def eenvEmpty : EnterEnv := { eenvEnter with value := "   ".data }

/-! ## Library aliases

Short names for the standard prefix/suffix facts used throughout. -/

theorem preToSub {l₁ l₂ : List Char} (h : l₁ <+: l₂) : l₁ <:+: l₂ := by
  exact List.IsPrefix.isInfix h

theorem sufToSub {l₁ l₂ : List Char} (h : l₁ <:+ l₂) : l₁ <:+: l₂ := by
  exact List.IsSuffix.isInfix h

theorem takePre (n : Nat) (l : List Char) : l.take n <+: l := by
  exact List.take_prefix n l

theorem dropSuf (n : Nat) (l : List Char) : l.drop n <:+ l := by
  exact List.drop_suffix n l

theorem preLen {l₁ l₂ : List Char} (h : l₁ <+: l₂) : l₁.length ≤ l₂.length := by
  exact List.IsPrefix.length_le h

theorem sufLen {l₁ l₂ : List Char} (h : l₁ <:+ l₂) : l₁.length ≤ l₂.length := by
  exact List.IsSuffix.length_le h

theorem sufEqOfLen {l₁ l₂ : List Char} (h : l₁ <:+ l₂) (he : l₁.length = l₂.length) :
    l₁ = l₂ := by
  exact List.IsSuffix.eq_of_length h he

theorem preEqTake {l₁ l₂ : List Char} (h : l₁ <+: l₂) : l₁ = l₂.take l₁.length := by
  exact List.prefix_iff_eq_take.mp h

theorem preTakeIff {l₁ l₂ : List Char} {n : Nat} :
    l₁ <+: l₂.take n ↔ l₁ <+: l₂ ∧ l₁.length ≤ n := by
  exact List.prefix_take_iff

theorem isPreIff {l₁ l₂ : List Char} : l₁.isPrefixOf l₂ = true ↔ l₁ <+: l₂ := by
  exact List.isPrefixOf_iff_prefix

theorem wsSuffixLen_le (l : List Char) : wsSuffixLen l ≤ l.length := by
  have h := preLen (h := List.takeWhile_prefix (l := l.reverse) (p := isJsWS))
  simpa [wsSuffixLen] using h

/-! ## Trim lemmas -/

theorem dropWhile_idem (p : Char → Bool) (l : List Char) :
    (l.dropWhile p).dropWhile p = l.dropWhile p := by
  induction l with
  | nil => rfl
  | cons a tl ih =>
    by_cases h : p a
    · simp [List.dropWhile_cons, h, ih]
    · simp [List.dropWhile_cons, h]

theorem dropWhile_take_of_eq (p : Char → Bool) (l : List Char) (n : Nat)
    (h : l.dropWhile p = l) : (l.take n).dropWhile p = l.take n := by
  cases l with
  | nil => simp
  | cons a tl =>
    cases n with
    | zero => simp
    | succ m =>
      have ha : p a = false := by
        cases hpa : p a with
        | false => rfl
        | true =>
          have h2 : tl.dropWhile p = a :: tl := by
            simpa [List.dropWhile_cons, hpa] using h
          have h3 : (tl.dropWhile p).length ≤ tl.length :=
            sufLen (h := List.dropWhile_suffix p)
          rw [h2] at h3
          simp at h3
      simp [List.dropWhile_cons, ha]

theorem trimLeft_suf (l : List Char) : trimLeft l <:+ l := by
  exact List.dropWhile_suffix isJsWS

theorem trimRight_pre (l : List Char) : trimRight l <+: l := by
  have h : (trimRight l).reverse <:+ l.reverse := by
    unfold trimRight
    simpa using List.dropWhile_suffix (l := l.reverse) isJsWS
  exact List.reverse_suffix.mp h

theorem jsTrim_sub (l : List Char) : jsTrim l <:+: l := by
  have h1 : trimRight (trimLeft l) <+: trimLeft l := trimRight_pre (trimLeft l)
  have h2 : trimLeft l <:+ l := trimLeft_suf l
  exact List.IsInfix.trans (preToSub h1) (sufToSub h2)

theorem trimLeft_idem (l : List Char) : trimLeft (trimLeft l) = trimLeft l := by
  unfold trimLeft
  exact dropWhile_idem isJsWS l

theorem trimRight_idem (l : List Char) : trimRight (trimRight l) = trimRight l := by
  unfold trimRight
  rw [List.reverse_reverse, dropWhile_idem]

theorem trimLeft_trimRight (l : List Char) (h : trimLeft l = l) :
    trimLeft (trimRight l) = trimRight l := by
  have hp := trimRight_pre l
  have he : trimRight l = l.take (trimRight l).length := preEqTake hp
  rw [he]
  unfold trimLeft at h ⊢
  exact dropWhile_take_of_eq isJsWS l _ h

theorem jsTrim_idem (l : List Char) : jsTrim (jsTrim l) = jsTrim l := by
  unfold jsTrim
  rw [trimLeft_trimRight (trimLeft l) (trimLeft_idem l), trimRight_idem]

theorem trimLeft_eq_of_jsTrim (l : List Char) (h : jsTrim l = l) : trimLeft l = l := by
  have hs : trimLeft l <:+ l := trimLeft_suf l
  have h1 : l.length ≤ (trimLeft l).length := by
    have h2 : (jsTrim l).length ≤ (trimLeft l).length := preLen (trimRight_pre (trimLeft l))
    rw [h] at h2
    exact h2
  exact sufEqOfLen hs (Nat.le_antisymm (sufLen hs) h1)

theorem trimRight_eq_of_jsTrim (l : List Char) (h : jsTrim l = l) : trimRight l = l := by
  have h1 := trimLeft_eq_of_jsTrim l h
  unfold jsTrim at h
  rw [h1] at h
  exact h

theorem dropWhile_append_of_all (p : Char → Bool) (l₁ l₂ : List Char)
    (h : ∀ c ∈ l₁, p c = true) : (l₁ ++ l₂).dropWhile p = l₂.dropWhile p := by
  induction l₁ with
  | nil => rfl
  | cons a tl ih =>
    have ha : p a = true := h a (by simp)
    rw [List.cons_append, List.dropWhile_cons, ha]
    simp only [if_true]
    exact ih (fun c hc => h c (by simp [hc]))

theorem trimRight_append_ws (l ws : List Char) (h : ∀ c ∈ ws, isJsWS c = true) :
    trimRight (l ++ ws) = trimRight l := by
  unfold trimRight
  rw [List.reverse_append, dropWhile_append_of_all isJsWS ws.reverse l.reverse
    (fun c hc => h c (List.mem_reverse.mp hc))]

/-! ## Occurrence lemmas for `firstOccur` -/

theorem sub_iff_occurs (pat l : List Char) : pat <:+: l ↔ ∃ j, pat <+: l.drop j := by
  constructor
  · rintro ⟨s, t, rfl⟩
    refine ⟨s.length, ?_⟩
    rw [List.append_assoc, List.drop_left]
    exact List.prefix_append pat t
  · rintro ⟨j, hj⟩
    exact List.IsInfix.trans (preToSub hj) (sufToSub (dropSuf j l))

theorem firstOccur_none_no_occur (pat : List Char) (hp : pat ≠ []) :
    ∀ (l : List Char), firstOccur pat l = none → ∀ j, ¬ pat <+: l.drop j := by
  intro l
  induction l with
  | nil =>
    intro _ j hj
    rw [List.drop_nil] at hj
    exact hp (List.prefix_nil.mp hj)
  | cons a tl ih =>
    intro h j hj
    rw [firstOccur] at h
    cases hpre : pat.isPrefixOf (a :: tl) with
    | true => simp [hpre] at h
    | false =>
      simp only [hpre, Bool.false_eq_true, if_false] at h
      cases h2 : firstOccur pat tl with
      | some k => rw [h2] at h; simp at h
      | none =>
        cases j with
        | zero =>
          rw [List.drop_zero] at hj
          rw [isPreIff.mpr hj] at hpre
          exact Bool.true_eq_false.mp hpre
        | succ k =>
          exact ih h2 k (by simpa using hj)

theorem firstOccur_some_min (pat : List Char) :
    ∀ (l : List Char) (i : Nat), firstOccur pat l = some i →
      pat <+: l.drop i ∧ ∀ j, j < i → ¬ pat <+: l.drop j := by
  intro l
  induction l with
  | nil =>
    intro i h
    rw [firstOccur] at h
    cases hpre : pat.isPrefixOf ([] : List Char) with
    | true =>
      simp [hpre] at h
      refine ⟨?_, ?_⟩
      · rw [← h, List.drop_zero]
        exact isPreIff.mp hpre
      · intro j hj
        omega
    | false => simp [hpre] at h
  | cons a tl ih =>
    intro i h
    rw [firstOccur] at h
    cases hpre : pat.isPrefixOf (a :: tl) with
    | true =>
      simp [hpre] at h
      refine ⟨?_, ?_⟩
      · rw [← h, List.drop_zero]
        exact isPreIff.mp hpre
      · intro j hj
        omega
    | false =>
      simp only [hpre, Bool.false_eq_true, if_false] at h
      cases h2 : firstOccur pat tl with
      | none => rw [h2] at h; simp at h
      | some k =>
        rw [h2] at h
        simp at h
        obtain ⟨hk1, hk2⟩ := ih k h2
        refine ⟨?_, ?_⟩
        · rw [← h]
          simpa using hk1
        · intro j hj
          cases j with
          | zero =>
            rw [List.drop_zero]
            intro hcon
            rw [isPreIff.mpr hcon] at hpre
            exact Bool.true_eq_false.mp hpre
          | succ m =>
            have hm : m < k := by omega
            intro hcon
            exact hk2 m hm (by simpa using hcon)

theorem firstOccur_eq_some (pat : List Char) :
    ∀ (l : List Char) (i : Nat), pat <+: l.drop i →
      (∀ j, j < i → ¬ pat <+: l.drop j) → firstOccur pat l = some i := by
  intro l
  induction l with
  | nil =>
    intro i h1 h2
    rw [List.drop_nil] at h1
    have hp : pat = [] := List.prefix_nil.mp h1
    have hi : i = 0 := by
      by_contra hi
      exact h2 0 (by omega) (by rw [List.drop_nil]; exact h1)
    subst hp hi
    rfl
  | cons a tl ih =>
    intro i h1 h2
    cases i with
    | zero =>
      rw [List.drop_zero] at h1
      rw [firstOccur, if_pos (isPreIff.mpr h1)]
    | succ k =>
      have hpre : pat.isPrefixOf (a :: tl) = false := by
        cases hpre : pat.isPrefixOf (a :: tl) with
        | false => rfl
        | true =>
          exact absurd (by rw [List.drop_zero]; exact isPreIff.mp hpre)
            (h2 0 (by omega))
      rw [firstOccur, if_neg (by simp [hpre])]
      rw [ih k (by simpa using h1)
        (fun j hj hcon => h2 (j + 1) (by omega) (by simpa using hcon))]
      rfl

theorem firstOccur_none_iff (pat l : List Char) (hp : pat ≠ []) :
    firstOccur pat l = none ↔ ¬ pat <:+: l := by
  constructor
  · intro h hin
    obtain ⟨j, hj⟩ := (sub_iff_occurs pat l).mp hin
    exact firstOccur_none_no_occur pat hp l h j hj
  · intro h
    cases h2 : firstOccur pat l with
    | none => rfl
    | some i =>
      have h3 := (firstOccur_some_min pat l i h2).1
      exact absurd ((sub_iff_occurs pat l).mpr ⟨i, h3⟩) h

theorem no_occur_take (pat l : List Char) (i : Nat) (hp : pat ≠ [])
    (h : firstOccur pat l = some i) : ¬ pat <:+: l.take i := by
  intro hin
  obtain ⟨j, hj⟩ := (sub_iff_occurs pat (l.take i)).mp hin
  rw [List.drop_take] at hj
  obtain ⟨hj2, hlen⟩ := preTakeIff.mp hj
  have hpos : 0 < pat.length := List.length_pos.mpr hp
  have hij : j < i := by omega
  exact (firstOccur_some_min pat l i h).2 j hij hj2

theorem no_occur_of_take (pat l : List Char) (n : Nat) (h : ¬ pat <:+: l) :
    ¬ pat <:+: l.take n := by
  intro hin
  exact h (List.IsInfix.trans hin (preToSub (takePre n l)))

theorem no_occur_of_jsTrim (pat l : List Char) (h : ¬ pat <:+: l) :
    ¬ pat <:+: jsTrim l := by
  intro hin
  exact h (List.IsInfix.trans hin (jsTrim_sub l))

/-! ## Facts about the marker, established by computation -/

theorem markerNeNil : memoryMarker ≠ [] := by decide

theorem nlNotInMarker : '\n' ∉ memoryMarker := by decide

/-! ## Idempotence of the two strip procedures -/

theorem stripIdx_no_sub (l : List Char) : ¬ memoryMarker <:+: stripIdx l := by
  unfold stripIdx
  cases h : firstOccur memoryMarker l with
  | none => exact (firstOccur_none_iff memoryMarker l markerNeNil).mp h
  | some i =>
    exact no_occur_of_jsTrim _ _ (no_occur_take memoryMarker l i markerNeNil h)

theorem stripIdx_of_no_sub (l : List Char) (h : ¬ memoryMarker <:+: l) :
    stripIdx l = l := by
  unfold stripIdx
  rw [(firstOccur_none_iff memoryMarker l markerNeNil).mpr h]

theorem stripIdx_idem (l : List Char) : stripIdx (stripIdx l) = stripIdx l :=
  stripIdx_of_no_sub _ (stripIdx_no_sub l)

theorem stripRegex_no_sub (l : List Char) : ¬ memoryMarker <:+: stripRegex l := by
  unfold stripRegex
  cases h : firstOccur memoryMarker l with
  | none =>
    exact no_occur_of_jsTrim _ _ ((firstOccur_none_iff memoryMarker l markerNeNil).mp h)
  | some i =>
    apply no_occur_of_jsTrim
    have hsub : (l.take i).take (i - wsSuffixLen (l.take i)) = l.take (i - wsSuffixLen (l.take i)) := by
      rw [List.take_take]
      rw [Nat.min_eq_left (Nat.sub_le i _)]
    rw [← hsub]
    exact no_occur_of_take _ _ _ (no_occur_take memoryMarker l i markerNeNil h)

theorem stripRegex_of_no_sub (l : List Char) (h : ¬ memoryMarker <:+: l) :
    stripRegex l = jsTrim l := by
  unfold stripRegex
  rw [(firstOccur_none_iff memoryMarker l markerNeNil).mpr h]

theorem stripRegex_idem (l : List Char) : stripRegex (stripRegex l) = stripRegex l := by
  rw [stripRegex_of_no_sub _ (stripRegex_no_sub l)]
  unfold stripRegex
  cases h : firstOccur memoryMarker l with
  | none => exact jsTrim_idem l
  | some i => exact jsTrim_idem _

/-! ## Occurrence analysis across the compose boundary -/

theorem head_not_of_dropWhile_self (p : Char → Bool) (b : Char) (bs : List Char)
    (h : (b :: bs).dropWhile p = b :: bs) : p b = false := by
  cases hx : p b with
  | false => rfl
  | true =>
    have h2 : (b :: bs).dropWhile p = bs.dropWhile p := by
      simp [List.dropWhile_cons, hx]
    rw [h2] at h
    have h3 : (bs.dropWhile p).length ≤ bs.length := sufLen (List.dropWhile_suffix p)
    rw [h] at h3
    simp at h3

theorem takeWhile_nil_of_dropWhile_self (p : Char → Bool) (x : List Char)
    (h : x.dropWhile p = x) : x.takeWhile p = [] := by
  cases x with
  | nil => rfl
  | cons b bs =>
    have hb := head_not_of_dropWhile_self p b bs h
    simp [List.takeWhile_cons, hb]

theorem no_occur_of_boundary (pat A B : List Char) (c : Char)
    (hpat : pat ≠ []) (hc : c ∉ pat) (hA : ¬ pat <:+: A) :
    ∀ j, j ≤ A.length → ¬ pat <+: (A ++ c :: B).drop j := by
  intro j hj hcon
  rcases Nat.lt_or_ge j A.length with hlt | hge
  · rw [List.drop_append_of_le_length (by omega)] at hcon
    rcases Nat.lt_or_ge (A.drop j).length pat.length with hdl | hdg
    · have hX : A.drop j <+: pat :=
        List.prefix_of_prefix_length_le (List.prefix_append _ _) hcon (Nat.le_of_lt hdl)
      obtain ⟨r, hr⟩ := hX
      have hrpre : r <+: c :: B := by
        apply (List.prefix_append_right_inj (A.drop j)).mp
        rw [hr]
        exact hcon
      cases r with
      | nil =>
        have hl := congrArg List.length hr
        rw [List.append_nil] at hl
        omega
      | cons q qs =>
        have hqc : q = c := (List.cons_prefix_cons.mp hrpre).1
        apply hc
        rw [← hqc, ← hr]
        simp
    · have h1 : pat = ((A.drop j) ++ c :: B).take pat.length := preEqTake hcon
      rw [List.take_append_of_le_length (by omega)] at h1
      have hpre : pat <+: A.drop j := by
        rw [h1]
        exact takePre _ _
      exact hA ((sub_iff_occurs pat A).mpr ⟨j, hpre⟩)
  · have hje : j = A.length := by omega
    subst hje
    rw [List.drop_left] at hcon
    cases pat with
    | nil => exact hpat rfl
    | cons p pt =>
      have hpc : p = c := (List.cons_prefix_cons.mp hcon).1
      apply hc
      rw [← hpc]
      simp

theorem firstOccur_compose (orig rest : List Char) (hA : ¬ memoryMarker <:+: orig) :
    firstOccur memoryMarker (orig ++ '\n' :: '\n' :: (memoryMarker ++ rest))
      = some (orig.length + 2) := by
  apply firstOccur_eq_some
  · have hdrop : (orig ++ '\n' :: '\n' :: (memoryMarker ++ rest)).drop (orig.length + 2)
        = memoryMarker ++ rest := by
      have h1 : orig ++ '\n' :: '\n' :: (memoryMarker ++ rest)
          = (orig ++ ['\n', '\n']) ++ (memoryMarker ++ rest) := by simp
      rw [h1]
      have h2 : (orig ++ ['\n', '\n']).length = orig.length + 2 := by simp
      rw [← h2, List.drop_left]
    rw [hdrop]
    exact List.prefix_append _ _
  · intro j hj
    rcases Nat.lt_or_ge j (orig.length + 1) with h1 | h2
    · exact no_occur_of_boundary memoryMarker orig ('\n' :: (memoryMarker ++ rest)) '\n'
        markerNeNil nlNotInMarker hA j (by omega)
    · have hje : j = orig.length + 1 := by omega
      subst hje
      intro hcon
      have hdrop : (orig ++ '\n' :: '\n' :: (memoryMarker ++ rest)).drop (orig.length + 1)
          = '\n' :: (memoryMarker ++ rest) := by
        have ha : orig ++ '\n' :: '\n' :: (memoryMarker ++ rest)
            = (orig ++ ['\n']) ++ ('\n' :: (memoryMarker ++ rest)) := by simp
        rw [ha]
        have hb : (orig ++ ['\n']).length = orig.length + 1 := by simp
        rw [← hb, List.drop_left]
      rw [hdrop] at hcon
      cases hm : memoryMarker with
      | nil => exact markerNeNil hm
      | cons p pt =>
        rw [hm] at hcon
        have hpn : p = '\n' := (List.cons_prefix_cons.mp hcon).1
        apply nlNotInMarker
        rw [hm, ← hpn]
        simp

/-! ## Round-trip lemmas -/

theorem jsTrim_append_nn (orig : List Char) (ht : jsTrim orig = orig) :
    jsTrim (orig ++ ['\n', '\n']) = orig := by
  cases orig with
  | nil => decide
  | cons a tl =>
    have h1 : trimLeft (a :: tl) = a :: tl := trimLeft_eq_of_jsTrim _ ht
    have ha : isJsWS a = false := by
      apply head_not_of_dropWhile_self isJsWS a tl
      exact h1
    unfold jsTrim
    have h4 : trimLeft ((a :: tl) ++ ['\n', '\n']) = (a :: tl) ++ ['\n', '\n'] := by
      unfold trimLeft
      rw [List.cons_append, List.dropWhile_cons, ha]
      simp
    rw [h4, trimRight_append_ws (a :: tl) ['\n', '\n'] (by decide)]
    exact trimRight_eq_of_jsTrim _ ht

theorem wsSuffixLen_append_nn (orig : List Char) (ht : trimRight orig = orig) :
    wsSuffixLen (orig ++ ['\n', '\n']) = 2 := by
  unfold wsSuffixLen
  rw [List.reverse_append]
  have h2 : orig.reverse.dropWhile isJsWS = orig.reverse := by
    have h3 := congrArg List.reverse ht
    unfold trimRight at h3
    rw [List.reverse_reverse] at h3
    exact h3
  have h3 := takeWhile_nil_of_dropWhile_self isJsWS orig.reverse h2
  show (('\n' :: '\n' :: orig.reverse).takeWhile isJsWS).length = 2
  have hnl : isJsWS '\n' = true := by decide
  simp [List.takeWhile_cons, hnl, h3]

theorem composeP_take (orig rest2 : List Char) :
    (orig ++ '\n' :: '\n' :: rest2).take (orig.length + 2) = orig ++ ['\n', '\n'] := by
  have h1 : orig ++ '\n' :: '\n' :: rest2 = (orig ++ ['\n', '\n']) ++ rest2 := by simp
  rw [h1]
  have h2 : (orig ++ ['\n', '\n']).length = orig.length + 2 := by simp
  rw [← h2, List.take_left]

theorem stripIdx_composeP (orig : List Char) (mems : List (List Char))
    (hA : ¬ memoryMarker <:+: orig) (ht : jsTrim orig = orig) :
    stripIdx (composeP orig mems) = orig := by
  unfold composeP
  by_cases hm : mems.isEmpty
  · rw [if_pos hm]
    exact stripIdx_of_no_sub orig hA
  · rw [if_neg hm]
    unfold stripIdx
    rw [firstOccur_compose orig ('\n' :: bulletsP mems) hA]
    show jsTrim ((orig ++ '\n' :: '\n' :: (memoryMarker ++ '\n' :: bulletsP mems)).take
      (orig.length + 2)) = orig
    rw [composeP_take orig (memoryMarker ++ '\n' :: bulletsP mems)]
    exact jsTrim_append_nn orig ht

theorem stripRegex_composeP (orig : List Char) (mems : List (List Char))
    (hA : ¬ memoryMarker <:+: orig) (ht : jsTrim orig = orig) :
    stripRegex (composeP orig mems) = orig := by
  unfold composeP
  by_cases hm : mems.isEmpty
  · rw [if_pos hm, stripRegex_of_no_sub orig hA, ht]
  · rw [if_neg hm]
    unfold stripRegex
    rw [firstOccur_compose orig ('\n' :: bulletsP mems) hA]
    show jsTrim ((orig ++ '\n' :: '\n' :: (memoryMarker ++ '\n' :: bulletsP mems)).take
      (orig.length + 2 - wsSuffixLen ((orig ++ '\n' :: '\n'
        :: (memoryMarker ++ '\n' :: bulletsP mems)).take (orig.length + 2)))) = orig
    rw [composeP_take orig (memoryMarker ++ '\n' :: bulletsP mems)]
    rw [wsSuffixLen_append_nn orig (trimRight_eq_of_jsTrim orig ht)]
    have h5 : orig.length + 2 - 2 = orig.length := by omega
    rw [h5]
    have h6 : (orig ++ '\n' :: '\n' :: (memoryMarker ++ '\n' :: bulletsP mems)).take orig.length
        = orig := List.take_left orig ('\n' :: '\n' :: (memoryMarker ++ '\n' :: bulletsP mems))
    rw [h6]
    exact ht

/-! ## Compose structure lemmas -/

theorem bulletsP_eq_nlJoin (mems : List (List Char)) :
    bulletsP mems = nlJoin (mems.map (fun m => '-' :: ' ' :: m)) := by
  induction mems with
  | nil => rfl
  | cons m rest ih =>
    cases rest with
    | nil => simp [bulletsP, nlJoin]
    | cons m2 r2 =>
      rw [bulletsP, ih]
      simp only [List.map_cons, List.isEmpty_cons, nlJoin]
      rfl

theorem foldl_append_htmlBullet (mems : List (List Char)) (init : List Char) :
    mems.foldl (fun acc m => acc ++ htmlBullet m) init
      = init ++ (mems.map htmlBullet).flatten := by
  induction mems generalizing init with
  | nil => simp
  | cons m rest ih =>
    rw [List.foldl_cons, ih]
    simp [List.append_assoc]

theorem chatgptBlock_eq (mems : List (List Char)) :
    chatgptBlock mems
      = wrapOpen ++ strongLine ++ (mems.map htmlBullet).flatten ++ "</div>".data := by
  unfold chatgptBlock
  rw [foldl_append_htmlBullet]

/-! ## getLastMessages characterisation -/

theorem turnsOf_append (l₁ l₂ : List DomEntry) :
    turnsOf (l₁ ++ l₂) = turnsOf l₁ ++ turnsOf l₂ := by
  induction l₁ with
  | nil => rfl
  | cons e r ih => cases e <;> simp [turnsOf, ih]

theorem takeLast_zero (l : List Msg) : takeLast 0 l = [] := by
  unfold takeLast
  simp

theorem takeLast_append_one (n : Nat) (l : List Msg) (x : Msg) :
    takeLast (n + 1) (l ++ [x]) = takeLast n l ++ [x] := by
  unfold takeLast
  have h1 : (l ++ [x]).length = l.length + 1 := by simp
  rw [h1]
  have h2 : l.length + 1 - (n + 1) = l.length - n := by omega
  rw [h2]
  rw [List.drop_append_of_le_length (by omega)]

theorem collectMsgs_eq (count : Nat) :
    ∀ (l : List DomEntry) (acc : List Msg), acc.length ≤ count →
      collectMsgs count l acc = takeLast (count - acc.length) (turnsOf l.reverse) ++ acc := by
  intro l
  induction l with
  | nil =>
    intro acc h
    show acc = takeLast (count - acc.length) (turnsOf ([] : List DomEntry).reverse) ++ acc
    rw [List.reverse_nil]
    show acc = takeLast (count - acc.length) [] ++ acc
    unfold takeLast
    simp
  | cons e rest ih =>
    intro acc h
    by_cases hc : count ≤ acc.length
    · have hce : count = acc.length := by omega
      have h0 : count - acc.length = 0 := by omega
      rw [h0, takeLast_zero, List.nil_append]
      cases e <;> simp [collectMsgs, hc]
    · have hlt : acc.length < count := by omega
      rw [List.reverse_cons, turnsOf_append]
      cases e with
      | userMsg c =>
        rw [show collectMsgs count (DomEntry.userMsg c :: rest) acc
            = collectMsgs count rest (⟨Role.user, c⟩ :: acc) by simp [collectMsgs, hc]]
        rw [ih (⟨Role.user, c⟩ :: acc) (by simp; omega)]
        show takeLast (count - (acc.length + 1)) (turnsOf rest.reverse) ++ (⟨Role.user, c⟩ :: acc)
          = takeLast (count - acc.length) (turnsOf rest.reverse ++ [⟨Role.user, c⟩]) ++ acc
        have hcount : count - acc.length = (count - (acc.length + 1)) + 1 := by omega
        rw [hcount, takeLast_append_one]
        simp
      | assistantMsg c =>
        rw [show collectMsgs count (DomEntry.assistantMsg c :: rest) acc
            = collectMsgs count rest (⟨Role.assistant, c⟩ :: acc) by simp [collectMsgs, hc]]
        rw [ih (⟨Role.assistant, c⟩ :: acc) (by simp; omega)]
        show takeLast (count - (acc.length + 1)) (turnsOf rest.reverse) ++ (⟨Role.assistant, c⟩ :: acc)
          = takeLast (count - acc.length) (turnsOf rest.reverse ++ [⟨Role.assistant, c⟩]) ++ acc
        have hcount : count - acc.length = (count - (acc.length + 1)) + 1 := by omega
        rw [hcount, takeLast_append_one]
        simp
      | otherNode =>
        rw [show collectMsgs count (DomEntry.otherNode :: rest) acc
            = collectMsgs count rest acc by simp [collectMsgs, hc]]
        rw [ih acc (by omega)]
        show takeLast (count - acc.length) (turnsOf rest.reverse) ++ acc
          = takeLast (count - acc.length) (turnsOf rest.reverse ++ turnsOf [DomEntry.otherNode]) ++ acc
        simp [turnsOf]

theorem getLastMessages_eq (count : Nat) (entries : List DomEntry) :
    getLastMessages count entries = takeLast count (turnsOf entries) := by
  unfold getLastMessages
  rw [collectMsgs_eq count entries.reverse [] (by simp)]
  simp [List.reverse_reverse]

/-! ## Marker-freeness of the cleaned content -/

theorem cleanContent_no_sub (v : List Char) : ¬ memoryMarker <:+: cleanContent v := by
  unfold cleanContent
  apply no_occur_of_jsTrim
  unfold removeLastPar
  by_cases h : lastParLit <:+ stripRegex v
  · rw [if_pos h]
    exact no_occur_of_take _ _ _ (stripRegex_no_sub v)
  · rw [if_neg h]
    exact stripRegex_no_sub v

theorem chatgptMessage_no_sub (raw : List Char) :
    ¬ memoryMarker <:+: chatgptMessage raw := by
  unfold chatgptMessage sliceP
  cases h : firstOccur pEndTag (stripRegex raw) with
  | none => exact stripRegex_no_sub raw
  | some i => exact no_occur_of_take _ _ _ (stripRegex_no_sub raw)

/-! ## Claim C9 -/

/-- C9: strip is idempotent — for every content string, applying the
marker-based strip twice yields the same result as applying it once, both
for the regex-truncation form of the ChatGPT variant (`stripRegex`) and the
fixed-prefix `indexOf` form of the Grok variant (`stripIdx`). -/
theorem c9_strip_idempotent :
    (∀ c : List Char, stripRegex (stripRegex c) = stripRegex c)
      ∧ (∀ c : List Char, stripIdx (stripIdx c) = stripIdx c) :=
  ⟨stripRegex_idem, stripIdx_idem⟩

/-! ## Claim C3 -/

/-- C3 counterexample: the round trip fails for the ChatGPT textarea
representation.  Composing `"I love Python"` with the single memory
`"Loves FastAPI"` and stripping the result with the ChatGPT regex strip does
not recover the original: the strip truncates from the marker sentence
onward, which leaves the preceding `<div id="mem0-wrapper" ...><strong>`
markup of the injected block behind. -/
theorem c3_counterexample :
    stripRegex (chatgptComposeText "I love Python".data ["Loves FastAPI".data])
      ≠ "I love Python".data := by
  decide

/-- C3 amended: the strip/compose round trip does hold for the plain-text
newline representation used by the Perplexity and Grok variants — for every
trimmed original message that does not already contain the marker and every
memories list, both strip forms recover the original exactly.  For the
ChatGPT representations (textarea value and contenteditable innerHTML) the
round trip fails, because the regex strip leaves the wrapper markup that
precedes the marker in place (see the counterexample). -/
theorem c3_roundtrip_plaintext (orig : List Char) (mems : List (List Char))
    (hA : ¬ memoryMarker <:+: orig) (ht : jsTrim orig = orig) :
    stripIdx (composeP orig mems) = orig ∧ stripRegex (composeP orig mems) = orig :=
  ⟨stripIdx_composeP orig mems hA ht, stripRegex_composeP orig mems hA ht⟩

/-- C3 witness: the round trip evaluated on the spec scenario input. -/
theorem c3_roundtrip_witness :
    ¬ memoryMarker <:+: ("I love Python".data)
      ∧ jsTrim "I love Python".data = "I love Python".data
      ∧ stripIdx (composeP "I love Python".data ["Loves FastAPI".data])
          = "I love Python".data :=
  ⟨by decide, by decide,
    (c3_roundtrip_plaintext "I love Python".data ["Loves FastAPI".data]
      (by decide) (by decide)).1⟩

/-! ## Claim C4 -/

/-- C4 counterexample: the Perplexity composer does not remove a prior block
before appending a new one — it appends to the raw captured message (the Grok
composer likewise appends to the raw `capturedText`).  Re-composing content
that already carries one block yields content with two marker occurrences,
violating the at-most-one-block invariant. -/
theorem c4_counterexample :
    ¬ markerOccurrences (composeP (composeP "hi".data [['a']]) [['b']]) ≤ 1 := by
  decide

/-- C4 amended: only the ChatGPT composer strips before appending.  Its
cleaning pass removes every marker occurrence from the prior content, and the
composed content is exactly the cleaned content followed by the single new
block, for both the textarea and the contenteditable representation; so there
the appended block is the only block.  The Perplexity and Grok composers
append to the unstripped captured text (see the counterexample). -/
theorem c4_chatgpt_strips_first (v h : List Char) (mems : List (List Char)) :
    ¬ memoryMarker <:+: cleanContent v
      ∧ chatgptComposeText v mems = cleanContent v ++ '\n' :: chatgptBlock mems
      ∧ chatgptComposeHTML h mems
          = cleanContent h ++ "<div><br></div>".data ++ chatgptBlock mems :=
  ⟨cleanContent_no_sub v, rfl, rfl⟩

/-! ## Claim C5 -/

/-- C5: for every non-empty memories list, compose appends exactly one block:
the fixed preamble sentence (the marker), then one bullet line `- <memory>`
per memory in the order of the search response, with the original message
unmodified above the block.  Stated for the Perplexity/Grok plain-text
composer (whose bullet loop equals a newline-join of `"- " ++ mem` lines in
order), for the ChatGPT block builder (whose `forEach` loop equals the
concatenation of one `<div>- mem</div>` element per memory in order), and
evaluated on the spec scenario. -/
theorem c5_compose_structure :
    (∀ (orig : List Char) (mems : List (List Char)), mems ≠ [] →
      composeP orig mems
        = orig ++ '\n' :: '\n'
            :: (memoryMarker ++ '\n' :: nlJoin (mems.map (fun m => '-' :: ' ' :: m))))
    ∧ (∀ mems : List (List Char),
        chatgptBlock mems
          = wrapOpen ++ strongLine ++ (mems.map htmlBullet).flatten ++ "</div>".data)
    ∧ composeP "I love Python".data ["Loves FastAPI".data]
        = "I love Python".data ++ '\n' :: '\n'
            :: (memoryMarker ++ '\n' :: ('-' :: ' ' :: "Loves FastAPI".data)) := by
  refine ⟨?_, chatgptBlock_eq, by decide⟩
  intro orig mems hm
  unfold composeP
  rw [if_neg (by simp [hm]), bulletsP_eq_nlJoin]

/-- C5 witness: the structure theorem applied to the scenario input. -/
theorem c5_witness :
    (["Loves FastAPI".data] : List (List Char)) ≠ []
      ∧ composeP "I love Python".data ["Loves FastAPI".data]
        = "I love Python".data ++ '\n' :: '\n'
            :: (memoryMarker
                ++ '\n' :: nlJoin ((["Loves FastAPI".data] : List (List Char)).map
                    (fun m => '-' :: ' ' :: m))) :=
  ⟨by decide,
    c5_compose_structure.1 "I love Python".data ["Loves FastAPI".data] (by decide)⟩

/-! ## Claim C6 -/

/-- C6: when the search returns an empty memories list, compose is the
identity on the stripped original message and no block is ever injected.
The Perplexity composer returns the original message unchanged; the ChatGPT
empty-memories branch writes exactly the stripped message back to the input,
and that written content never contains the marker, so no empty block can
appear. -/
theorem c6_empty_memories_identity :
    (∀ orig : List Char, composeP orig [] = orig)
      ∧ (∀ raw : List Char, ¬ memoryMarker <:+: chatgptMessage raw)
      ∧ (∀ env : CEnv, env.memoryEnabled = true →
          jsTruthy (chatgptGetInput env) = true →
          env.searchOutcome = SearchResult.ok [] →
          (chatgptClick env false).writtenContent
            = some (chatgptMessage ((chatgptGetInput env).getD []))) := by
  refine ⟨fun orig => rfl, chatgptMessage_no_sub, ?_⟩
  intro env h1 h2 h3
  unfold chatgptClick
  simp only [h1, h2, h3]
  simp

/-- C6 witness: the empty-memories branch evaluated on a concrete
environment (`envOkC` with an empty search result). -/
theorem c6_witness :
    envOkC.memoryEnabled = true
      ∧ (chatgptClick envOkC false).writtenContent ≠ none
      ∧ (chatgptClick { envOkC with searchOutcome := SearchResult.ok [] } false).writtenContent
          = some (chatgptMessage
              ((chatgptGetInput { envOkC with searchOutcome := SearchResult.ok [] }).getD [])) :=
  ⟨by decide, by decide,
    c6_empty_memories_identity.2.2 { envOkC with searchOutcome := SearchResult.ok [] }
      (by decide) (by decide) (by decide)⟩

/-! ## Claim C1 -/

/-- C1 counterexample: the Perplexity variant has no in-progress flag at all
(`handleEnterKey` calls `handleMem0Processing` unconditionally and neither
function consults any re-entrancy state), so a second Enter fired while the
first cycle's search is still pending runs the identical path and issues a
second outbound search call: two presses within one cycle produce two search
calls, not one. -/
theorem c1_counterexample :
    ¬ ((perplexityProcess penvOk).searchCalls
        + (perplexityProcess penvOk).searchCalls = 1) := by
  decide

/-- C1 amended: the at-most-one-search-per-cycle guarantee holds for the
ChatGPT variant only, enforced by the `isProcessingMem0` flag: an invocation
that starts while the flag is set performs no search call whatsoever, and a
first press (flag clear) together with a re-entrant second press (flag set,
because the first cycle is between its guard and its `finally`) perform
exactly one search call in total.  The Perplexity and Grok variants have no
such flag (see the counterexample). -/
theorem c1_chatgpt_guard (env : CEnv) :
    (chatgptClick env true).searchCalls = 0
      ∧ (env.memoryEnabled = true → jsTruthy (chatgptGetInput env) = true →
          (chatgptClick env false).searchCalls
            + (chatgptClick env true).searchCalls = 1) := by
  constructor
  · unfold chatgptClick
    by_cases h1 : env.memoryEnabled = false
    · simp [h1]
    · simp only [h1, if_false]
      by_cases h2 : jsTruthy (chatgptGetInput env) = false
      · simp [h2]
      · simp only [h2, if_false, if_true]
        rfl
  · intro h1 h2
    have hz : (chatgptClick env true).searchCalls = 0 := by
      unfold chatgptClick
      simp only [h1, h2]
      simp
    have ho : (chatgptClick env false).searchCalls = 1 := by
      unfold chatgptClick
      simp only [h1, h2]
      cases hs : env.searchOutcome <;> simp
    omega

/-- C1 witness: the guard evaluated on a concrete environment — the first
press searches once, the re-entrant press does not search. -/
theorem c1_witness :
    envOkC.memoryEnabled = true
      ∧ (chatgptClick envOkC false).searchCalls
          + (chatgptClick envOkC true).searchCalls = 1 :=
  ⟨by decide, (c1_chatgpt_guard envOkC).2 (by decide) (by decide)⟩

/-! ## Claim C2 -/

/-- C2 counterexample: when the search call fails, the submission is NOT
released.  In the ChatGPT variant the send-button click sits after the fetch
inside the `try` block, so the thrown error skips it and the `catch` block
re-throws; on this concrete environment (search fails, `clickSendButton`
requested) the release never happens, contradicting the claim that the
submission still releases. -/
theorem c2_counterexample :
    envErrC.searchOutcome = SearchResult.err
      ∧ envErrC.clickSendButton = true
      ∧ (chatgptClick envErrC false).releaseInvoked = false := by
  decide

/-- C2 amended: on search failure the cycle degrades without corrupting the
draft and without getting stuck — the ChatGPT variant never touches the
input (the original typed message is still there), clears its in-progress
flag in `finally` (back to IDLE) and issues no add call; the Perplexity
variant restores the original captured message into the input.  But in both
variants the native send is NOT invoked: the message is not sent and the
user must press Enter again. -/
theorem c2_search_failure (env : CEnv) (p : PEnv) :
    (env.memoryEnabled = true → jsTruthy (chatgptGetInput env) = true →
      env.searchOutcome = SearchResult.err →
        (chatgptClick env false).writtenContent = none
          ∧ (chatgptClick env false).releaseInvoked = false
          ∧ (chatgptClick env false).flagAfter = false
          ∧ (chatgptClick env false).addCalls = 0)
    ∧ (p.capturedText ≠ [] → credsPresent p = true → pMemoryEnabled p = true →
        p.searchOutcome = SearchResult.err → p.inputPresent = true →
          (perplexityProcess p).writtenContent = some p.capturedText
            ∧ (perplexityProcess p).releaseInvoked = false
            ∧ (perplexityProcess p).addCalls = 0) := by
  constructor
  · intro h1 h2 h3
    unfold chatgptClick
    simp only [h1, h2, h3]
    simp
  · intro hp hc hm hs hi
    have hmsg : pMessage p = p.capturedText := by
      unfold pMessage
      simp [hp]
    unfold perplexityProcess
    rw [hmsg]
    simp only [hc, hm, hs, hi]
    simp [hp]

/-- C2 witness: the failure handling evaluated on concrete environments for
both variants. -/
theorem c2_witness :
    envErrC.searchOutcome = SearchResult.err
      ∧ penvErr.searchOutcome = SearchResult.err
      ∧ (chatgptClick envErrC false).flagAfter = false
      ∧ (perplexityProcess penvErr).writtenContent = some penvErr.capturedText :=
  ⟨by decide, by decide,
    ((c2_search_failure envErrC penvErr).1 (by decide) (by decide) (by decide)).2.2.1,
    ((c2_search_failure envErrC penvErr).2 (by decide) (by decide) (by decide)
      (by decide) (by decide)).1⟩

/-! ## Claim C7 -/

/-- C7 counterexample: the Perplexity (and Grok) add call does not carry the
prior conversation turns.  The content script reads no conversation history
from the host DOM — whatever the transcript holds, the transmitted context
window is exactly the one new user message.  Here the DOM holds one prior
assistant turn and the payload omits it. -/
theorem c7_counterexample :
    perplexityAddPayload [DomEntry.assistantMsg "prev".data] "hi".data
        = [⟨Role.user, "hi".data⟩]
      ∧ (⟨Role.assistant, "prev".data⟩ : Msg)
          ∉ perplexityAddPayload [DomEntry.assistantMsg "prev".data] "hi".data := by
  decide

/-- C7 amended: only the ChatGPT variant assembles the context window the
claim describes — its add payload is the last (at most) two conversation
turns read from the host DOM followed by the new user message, and that is
the payload its successful cycle transmits.  The Perplexity and Grok
variants transmit only the new message, with no prior turns (see the
counterexample).  In every variant the add response feeds structured logging
only: the run models take no add response at all, so no effect can depend on
it. -/
theorem c7_add_context (entries : List DomEntry) (m : List Char) (env : CEnv) (p : PEnv) :
    chatgptAddPayload entries m = takeLast 2 (turnsOf entries) ++ [⟨Role.user, m⟩]
      ∧ perplexityAddPayload entries m = [⟨Role.user, m⟩]
      ∧ (env.memoryEnabled = true → jsTruthy (chatgptGetInput env) = true →
          ∀ mems, env.searchOutcome = SearchResult.ok mems →
            (chatgptClick env false).addPayload
              = some (takeLast 2 (turnsOf env.dom)
                  ++ [⟨Role.user, chatgptMessage ((chatgptGetInput env).getD [])⟩]))
      ∧ (p.capturedText ≠ [] → credsPresent p = true → pMemoryEnabled p = true →
          ∀ mems, p.searchOutcome = SearchResult.ok mems →
            (perplexityProcess p).addPayload = some [⟨Role.user, p.capturedText⟩]) := by
  refine ⟨?_, rfl, ?_, ?_⟩
  · unfold chatgptAddPayload
    rw [getLastMessages_eq]
  · intro h1 h2 mems h3
    unfold chatgptClick
    simp only [h1, h2, h3]
    simp [getLastMessages_eq]
  · intro hp hc hm mems hs
    have hmsg : pMessage p = p.capturedText := by
      unfold pMessage
      simp [hp]
    unfold perplexityProcess
    rw [hmsg]
    simp only [hc, hm, hs]
    simp [hp]
    split <;> rfl

/-- C7 witness: the payloads evaluated on concrete environments. -/
theorem c7_witness :
    envOkC.memoryEnabled = true
      ∧ (chatgptClick envOkC false).addPayload
          = some (takeLast 2 (turnsOf envOkC.dom)
              ++ [⟨Role.user, chatgptMessage ((chatgptGetInput envOkC).getD [])⟩])
      ∧ (perplexityProcess penvOk).addPayload = some [⟨Role.user, penvOk.capturedText⟩] :=
  ⟨by decide,
    (c7_add_context [] [] envOkC penvOk).2.2.1 (by decide) (by decide)
      ["Loves FastAPI".data] (by decide),
    (c7_add_context [] [] envOkC penvOk).2.2.2 (by decide) (by decide) (by decide)
      [] (by decide)⟩

/-! ## Claim C8 -/

/-- C8 counterexample: an empty-input capture does not always produce a
user-visible transient notice.  The ChatGPT Enter-interception path calls
`handleMem0Click(null, true)` with no popup anchor, so on an empty input the
cycle aborts with a console error only — `showPopup` is never reached.  On
this concrete environment (empty input, no popup anchor) the abort happens
with an empty popup-message list. -/
theorem c8_counterexample :
    jsTruthy (chatgptGetInput envEmptyC) = false
      ∧ (chatgptClick envEmptyC false).searchCalls = 0
      ∧ (chatgptClick envEmptyC false).popupMessages = [] := by
  decide

/-- C8 amended: an empty-input capture aborts the ChatGPT cycle back to IDLE
with no search call, no add call, no release, no input write and the
in-progress flag untouched, logging a console error; the transient popup
notice is shown exactly when a popup anchor was passed (the toolbar-button
path) — the Enter path passes none and shows nothing (see the
counterexample).  In the Perplexity and Grok variants an empty input is
never captured at all: the emptiness guard precedes `preventDefault`, so the
native Enter proceeds untouched. -/
theorem c8_empty_input (env : CEnv) (e : EnterEnv) :
    (env.memoryEnabled = true → jsTruthy (chatgptGetInput env) = false →
      (chatgptClick env false).searchCalls = 0
        ∧ (chatgptClick env false).addCalls = 0
        ∧ (chatgptClick env false).releaseInvoked = false
        ∧ (chatgptClick env false).writtenContent = none
        ∧ (chatgptClick env false).flagAfter = false
        ∧ (chatgptClick env false).consoleErrors = 1
        ∧ (chatgptClick env false).popupMessages
            = (if env.popupPresent then ["No input message found".data] else []))
    ∧ (jsTrim e.value = [] → enterCaptures e = false) := by
  constructor
  · intro h1 h2
    unfold chatgptClick
    simp only [h1, h2]
    simp
  · intro hv
    unfold enterCaptures
    rw [hv]
    simp

/-- C8 witness: the abort evaluated on a concrete empty-input environment
with a popup anchor, and a blank-valued Enter event. -/
theorem c8_witness :
    jsTruthy (chatgptGetInput envEmptyPopupC) = false
      ∧ jsTrim eenvEmpty.value = []
      ∧ (chatgptClick envEmptyPopupC false).popupMessages
          = (if envEmptyPopupC.popupPresent then ["No input message found".data] else [])
      ∧ enterCaptures eenvEmpty = false :=
  ⟨by decide, by decide,
    ((c8_empty_input envEmptyPopupC eenvEmpty).1 (by decide) (by decide)).2.2.2.2.2.2,
    (c8_empty_input envEmptyPopupC eenvEmpty).2 (by decide)⟩

/-! ## Claim C10 -/

/-- C10: in the Perplexity and Grok variants, when neither an apiKey nor an
access_token is stored, a captured Enter on non-empty input has already been
prevented, but the processing function aborts at the credentials guard: no
search call, no add call, no composition (no input write), no submission
release — the only output is one console error, and the typed text stays in
the input.  The third conjunct shows the capture (and hence the already-done
`preventDefault`) for any non-blank Enter press. -/
theorem c10_no_credentials (p g : PEnv) (e : EnterEnv) :
    (p.capturedText ≠ [] → credsPresent p = false →
      perplexityProcess p
        = { searchCalls := 0, addCalls := 0, addPayload := none,
            releaseInvoked := false, consoleErrors := 1, writtenContent := none })
    ∧ (g.capturedText ≠ [] → credsPresent g = false →
        grokProcess g
          = { searchCalls := 0, addCalls := 0, addPayload := none,
              releaseInvoked := false, consoleErrors := 1, writtenContent := none })
    ∧ (e.isEnter = true → e.shift = false → e.composing = false →
        e.textareaPresent = true → e.focused = true → jsTrim e.value ≠ [] →
        enterCaptures e = true) := by
  refine ⟨?_, ?_, ?_⟩
  · intro hp hc
    have hmsg : pMessage p = p.capturedText := by
      unfold pMessage
      simp [hp]
    unfold perplexityProcess
    rw [hmsg]
    simp only [hc]
    simp [hp]
  · intro hp hc
    have hmsg : pMessage g = g.capturedText := by
      unfold pMessage
      simp [hp]
    unfold grokProcess
    rw [hmsg]
    simp only [hc]
    simp [hp]
  · intro h1 h2 h3 h4 h5 h6
    unfold enterCaptures
    rw [h1, h2, h3, h4, h5]
    simp [h6]

/-- C10 witness: the credentials guard evaluated on a concrete environment
(absent apiKey, empty-string access token) together with a captured Enter. -/
theorem c10_witness :
    credsPresent penvNoCreds = false
      ∧ penvNoCreds.capturedText ≠ []
      ∧ perplexityProcess penvNoCreds
          = { searchCalls := 0, addCalls := 0, addPayload := none,
              releaseInvoked := false, consoleErrors := 1, writtenContent := none }
      ∧ grokProcess penvNoCreds
          = { searchCalls := 0, addCalls := 0, addPayload := none,
              releaseInvoked := false, consoleErrors := 1, writtenContent := none }
      ∧ enterCaptures eenvEnter = true :=
  ⟨by decide, by decide,
    (c10_no_credentials penvNoCreds penvNoCreds eenvEnter).1 (by decide) (by decide),
    (c10_no_credentials penvNoCreds penvNoCreds eenvEnter).2.1 (by decide) (by decide),
    (c10_no_credentials penvNoCreds penvNoCreds eenvEnter).2.2 (by decide) (by decide)
      (by decide) (by decide) (by decide) (by decide)⟩

end Mem0
